import Mathlib

/-!
Shallow embedding of the metrics-aggregation engine of
`react-performance-analyzer` (files `src/core/performanceComparator.js` and
`src/core/performanceMonitoring.js`).

Modelling conventions:
* JS numbers are modelled as `ℚ` (all arithmetic in the engine is +, -, *, /,
  comparisons and `Math.max`); timestamps (`Date.now()`) are `ℤ` and are passed
  in explicitly wherever the source reads the clock.
* A JS `Map` is an insertion-ordered association list `List (key × value)`;
  `Map.get` is `mapGet`, `Map.set` is `mapSet` (update in place for an existing
  key, append for a new one), matching JS `Map` iteration-order semantics.
* A JS `Set` of strings is a deduplicated insertion-ordered `List String`.
* `x.push(e); if (x.length > cap) x.shift();` is `pushCapped cap`.
* Host readings (`performance.memory`) are passed as explicit parameters
  (`Option` when the host may lack the API).
* JS division of a positive number by zero yields `Infinity`; where the source
  can divide by zero (`renderFrequency`), the quotient is modelled as
  `Option ℚ` with `none` standing for the infinite value, and the source's
  `freq > budget` comparison is `freqGtBudget` (`none` compares greater than
  any finite budget, as `Infinity` does in JS).
* Console logging is ignored (pure side channel); string interpolation of
  numbers into messages is elided, message/issue strings keep their constant
  descriptive part only.
-/

/-- One entry of `this.metrics.memoryUsage` as built by `measureMemoryUsage`:
`{used, total, limit, timestamp}`. -/
structure MemorySample where
  used : ℚ
  total : ℚ
  limit : ℚ
  timestamp : ℤ
deriving DecidableEq

/-- One entry of `this.metrics.renderHistory.get(child)` as pushed by
`trackComponentDependency`. -/
structure RenderHistoryEntry where
  timestamp : ℤ
  renderTime : ℚ
  parentComponent : String
  context : String
deriving DecidableEq

/-- The `this.performanceBudgets` object (six fixed keys). -/
structure PerformanceBudgets where
  renderTime : ℚ
  totalRenderTime : ℚ
  memoryUsage : ℚ
  bundleSize : ℚ
  componentCount : ℚ
  reRendersPerSecond : ℚ
deriving DecidableEq

/-- Default budgets from the `PerformanceMonitor` constructor. -/
def defaultBudgets : PerformanceBudgets where
  renderTime := 16
  totalRenderTime := 100
  memoryUsage := 50 * 1024 * 1024
  bundleSize := 2 * 1024 * 1024
  componentCount := 100
  reRendersPerSecond := 30

/-- Severity levels of a budget violation. -/
inductive Severity where
  | info
  | warning
  | critical
deriving DecidableEq

/-- A budget violation record (the `message` string of the source is elided:
it is a constant template with numbers interpolated). -/
structure Violation where
  vtype : String
  budget : ℚ
  actual : ℚ
  severity : Severity
deriving DecidableEq

/-- A timestamped batch pushed onto `this.budgetViolations`. -/
structure ViolationBatch where
  timestamp : ℤ
  violations : List Violation
deriving DecidableEq

/-- A snapshot as returned by `takePerformanceSnapshot`. -/
structure Snapshot where
  label : String
  timestamp : ℤ
  memory : ℚ
  componentCount : ℕ
  renderTimes : List (String × ℚ)
  budgetViolations : List Violation
deriving DecidableEq

/-- A profiling session (`this.currentSession`); the fields stamped only by
`endProfilingSession` are `Option`s that start out `none`. -/
structure Session where
  name : String
  startTime : ℤ
  startMemory : ℚ
  initialComponentCount : ℕ
  snapshots : List Snapshot
  endTime : Option ℤ := none
  duration : Option ℤ := none
  endMemory : Option ℚ := none
  memoryDelta : Option ℚ := none
deriving DecidableEq

/-- The state of a `PerformanceMonitor` instance (the fields of `this.metrics`
together with the budget, violation-log and session fields; the
`bundleLoadTimes` map is carried for completeness). -/
structure Monitor where
  componentRenderTimes : List (String × ℚ)
  bundleLoadTimes : List (String × ℚ)
  memoryUsage : List MemorySample
  slowComponents : List String
  dependencyGraph : List (String × List String)
  renderHistory : List (String × List RenderHistoryEntry)
  budgets : PerformanceBudgets
  budgetViolations : List ViolationBatch
  currentSession : Option Session
deriving DecidableEq

/-- A freshly constructed `PerformanceMonitor`. -/
def initMonitor : Monitor where
  componentRenderTimes := []
  bundleLoadTimes := []
  memoryUsage := []
  slowComponents := []
  dependencyGraph := []
  renderHistory := []
  budgets := defaultBudgets
  budgetViolations := []
  currentSession := none

/-- JS `Map.prototype.get` on an insertion-ordered association list. -/
def mapGet {α : Type} (m : List (String × α)) (k : String) : Option α :=
  (m.find? (fun p => p.1 = k)).map Prod.snd

/-- JS `Map.prototype.set`: update in place when the key exists (keys are
unique, so replacing the first occurrence is the in-place update), append
otherwise. -/
def mapSet {α : Type} (m : List (String × α)) (k : String) (v : α) :
    List (String × α) :=
  match m with
  | [] => [(k, v)]
  | p :: rest => if p.1 = k then (k, v) :: rest else p :: mapSet rest k v

/-- JS `xs.push(a); if (xs.length > cap) xs.shift();` -/
def pushCapped {α : Type} (cap : ℕ) (l : List α) (a : α) : List α :=
  let l2 := l ++ [a]
  if cap < l2.length then l2.tail else l2

/-- JS `measureMemoryUsage()`: the host heap reading (`performance.memory`,
together with the `Date.now()` stamp) is passed as the `reading` parameter;
`none` models a host without memory introspection, in which case the method
returns `null` and changes nothing.  Otherwise the sample is pushed onto
`metrics.memoryUsage` with a FIFO cap of 100. -/
def measureMemoryUsage (m : Monitor) (reading : Option MemorySample) :
    Option MemorySample × Monitor :=
  match reading with
  | none => (none, m)
  | some usage =>
      (some usage, { m with memoryUsage := pushCapped 100 m.memoryUsage usage })

/-- Fold a sequence of successful `measureMemoryUsage` calls over a monitor. -/
def insertSamples (m : Monitor) (samples : List MemorySample) : Monitor :=
  samples.foldl (fun st s => (measureMemoryUsage st (some s)).2) m

lemma foldl_pushCapped_eq {α : Type} (cap : ℕ) :
    ∀ (l M : List α), M.length ≤ cap →
      l.foldl (pushCapped cap) M = (M ++ l).drop (M.length + l.length - cap)
  | [], M, h => by
    simp only [List.foldl_nil, List.append_nil, List.length_nil, Nat.add_zero,
      Nat.sub_eq_zero_of_le h, List.drop_zero]
  | a :: l, M, h => by
    rw [List.foldl_cons]
    by_cases hlt : M.length < cap
    · have hcond : ¬ cap < (M ++ [a]).length := by
        simp only [List.length_append, List.length_cons, List.length_nil]
        omega
      have hM1 : pushCapped cap M a = M ++ [a] := by
        simp only [pushCapped]
        rw [if_neg hcond]
      have hlen1 : (M ++ [a]).length ≤ cap := by
        simp only [List.length_append, List.length_cons, List.length_nil]
        omega
      rw [hM1, foldl_pushCapped_eq cap l (M ++ [a]) hlen1]
      have h4 : (M ++ [a]) ++ l = M ++ a :: l := by simp
      rw [h4]
      congr 1
      simp only [List.length_append, List.length_cons, List.length_nil]
      omega
    · have heq : M.length = cap := by omega
      have hcond : cap < (M ++ [a]).length := by
        simp only [List.length_append, List.length_cons, List.length_nil]
        omega
      have hM1 : pushCapped cap M a = (M ++ [a]).drop 1 := by
        simp only [pushCapped]
        rw [if_pos hcond, ← List.drop_one]
      have hlen1 : ((M ++ [a]).drop 1).length ≤ cap := by
        simp only [List.length_drop, List.length_append, List.length_cons,
          List.length_nil]
        omega
      rw [hM1, foldl_pushCapped_eq cap l ((M ++ [a]).drop 1) hlen1]
      have hidx : ((M ++ [a]).drop 1).length + l.length - cap = l.length := by
        simp only [List.length_drop, List.length_append, List.length_cons,
          List.length_nil]
        omega
      have hle1 : (1 : ℕ) ≤ (M ++ [a]).length := by
        simp only [List.length_append, List.length_cons, List.length_nil]
        omega
      rw [hidx, ← List.drop_append_of_le_length hle1, List.drop_drop]
      have h4 : (M ++ [a]) ++ l = M ++ a :: l := by simp
      rw [h4]
      congr 1
      simp only [List.length_append, List.length_cons, List.length_nil]
      omega

lemma insertSamples_memoryUsage (m : Monitor) (l : List MemorySample) :
    (insertSamples m l).memoryUsage =
      l.foldl (pushCapped 100) m.memoryUsage := by
  induction l generalizing m with
  | nil => rfl
  | cons a l ih =>
      simp only [insertSamples, List.foldl_cons] at *
      rw [ih]
      rfl

/-- C2: Starting from a fresh monitor, after any sequence of successful
`measureMemoryUsage` insertions the stored memory-usage sequence has length at
most 100, and when exactly 150 samples have been inserted the retained window
is exactly the last 100 inserted (the first 50 were evicted FIFO). -/
theorem measureMemoryUsage_window (l : List MemorySample) :
    (insertSamples initMonitor l).memoryUsage.length ≤ 100 ∧
      (l.length = 150 →
        (insertSamples initMonitor l).memoryUsage = l.drop 50) := by
  have hbase : (initMonitor.memoryUsage).length ≤ 100 := by
    simp [initMonitor]
  have hfold := foldl_pushCapped_eq 100 l initMonitor.memoryUsage hbase
  rw [insertSamples_memoryUsage, hfold]
  constructor
  · rw [List.length_drop]
    simp [initMonitor]
    omega
  · intro h150
    simp [initMonitor, h150]

/-- 150 distinct timestamped samples, used as a concrete input for C2. -/
def sampleList150 : List MemorySample :=
  (List.range 150).map
    (fun i => { used := 0, total := 0, limit := 0, timestamp := Int.ofNat i })

/-- Witness for C2: a concrete run of 150 distinct timestamped samples keeps
exactly the last 100. -/
theorem measureMemoryUsage_window_witness :
    (insertSamples initMonitor sampleList150).memoryUsage =
      sampleList150.drop 50 :=
  (measureMemoryUsage_window sampleList150).2
    (by rw [sampleList150, List.length_map, List.length_range])

/-- The six keys of `this.performanceBudgets` (the set for which
`hasOwnProperty` succeeds in `setPerformanceBudget`). -/
def budgetNames : List String :=
  ["renderTime", "totalRenderTime", "memoryUsage", "bundleSize",
    "componentCount", "reRendersPerSecond"]

/-- Read `this.performanceBudgets[name]` (`none` for a key the object does not
have). -/
def getBudget (b : PerformanceBudgets) (name : String) : Option ℚ :=
  if name = "renderTime" then some b.renderTime
  else if name = "totalRenderTime" then some b.totalRenderTime
  else if name = "memoryUsage" then some b.memoryUsage
  else if name = "bundleSize" then some b.bundleSize
  else if name = "componentCount" then some b.componentCount
  else if name = "reRendersPerSecond" then some b.reRendersPerSecond
  else none

/-- JS `setPerformanceBudget(budgetType, value)`: assign the field when
`hasOwnProperty` holds, otherwise log a warning and change nothing. -/
def setPerformanceBudget (m : Monitor) (budgetType : String) (value : ℚ) :
    Monitor :=
  if budgetType = "renderTime" then
    { m with budgets := { m.budgets with renderTime := value } }
  else if budgetType = "totalRenderTime" then
    { m with budgets := { m.budgets with totalRenderTime := value } }
  else if budgetType = "memoryUsage" then
    { m with budgets := { m.budgets with memoryUsage := value } }
  else if budgetType = "bundleSize" then
    { m with budgets := { m.budgets with bundleSize := value } }
  else if budgetType = "componentCount" then
    { m with budgets := { m.budgets with componentCount := value } }
  else if budgetType = "reRendersPerSecond" then
    { m with budgets := { m.budgets with reRendersPerSecond := value } }
  else m

/-- JS `checkPerformanceBudgets`: average of the current render times
(`0` when there are none). -/
def avgRenderTimeOf (m : Monitor) : ℚ :=
  let recentRenders := m.componentRenderTimes.map Prod.snd
  if 0 < recentRenders.length then
    recentRenders.sum / (recentRenders.length : ℚ)
  else 0

/-- The render-time budget check of `checkPerformanceBudgets`. -/
def renderTimeViolation (m : Monitor) : Option Violation :=
  let avg := avgRenderTimeOf m
  if m.budgets.renderTime < avg then
    some { vtype := "renderTime", budget := m.budgets.renderTime, actual := avg,
           severity :=
             if m.budgets.renderTime * 2 < avg then Severity.critical
             else Severity.warning }
  else none

/-- The total-render-time budget check of `checkPerformanceBudgets`. -/
def totalRenderTimeViolation (m : Monitor) : Option Violation :=
  let total := (m.componentRenderTimes.map Prod.snd).sum
  if m.budgets.totalRenderTime < total then
    some { vtype := "totalRenderTime", budget := m.budgets.totalRenderTime,
           actual := total, severity := Severity.warning }
  else none

/-- JS `checkPerformanceBudgets`: the `used` field of the most recent memory
sample (`0` when none is stored). -/
def currentMemoryOf (m : Monitor) : ℚ :=
  match m.memoryUsage.getLast? with
  | some u => u.used
  | none => 0

/-- The memory budget check of `checkPerformanceBudgets` (`1.5` in the source
is written `3 / 2`). -/
def memoryViolation (m : Monitor) : Option Violation :=
  let cur := currentMemoryOf m
  if m.budgets.memoryUsage < cur then
    some { vtype := "memoryUsage", budget := m.budgets.memoryUsage,
           actual := cur,
           severity :=
             if m.budgets.memoryUsage * (3 / 2) < cur then Severity.critical
             else Severity.warning }
  else none

/-- The component-count budget check of `checkPerformanceBudgets`
(`Map.size` is the length of the association list, whose keys are unique). -/
def componentCountViolation (m : Monitor) : Option Violation :=
  let count := m.componentRenderTimes.length
  if m.budgets.componentCount < (count : ℚ) then
    some { vtype := "componentCount", budget := m.budgets.componentCount,
           actual := (count : ℚ), severity := Severity.info }
  else none

/-- The list of violations computed by one `checkPerformanceBudgets()` call,
in source order. -/
def checkViolationsList (m : Monitor) : List Violation :=
  (renderTimeViolation m).toList ++ (totalRenderTimeViolation m).toList ++
    (memoryViolation m).toList ++ (componentCountViolation m).toList

/-- JS `checkPerformanceBudgets()`: returns the violations and, when the list is
non-empty, pushes a timestamped batch onto `this.budgetViolations` with a FIFO
cap of 50. -/
def checkPerformanceBudgets (m : Monitor) (now : ℤ) :
    List Violation × Monitor :=
  let violations := checkViolationsList m
  if violations.isEmpty then (violations, m)
  else
    (violations,
      { m with budgetViolations :=
          pushCapped 50 m.budgetViolations ⟨now, violations⟩ })


lemma checkPerformanceBudgets_fst (m : Monitor) (now : ℤ) :
    (checkPerformanceBudgets m now).1 = checkViolationsList m := by
  simp only [checkPerformanceBudgets]
  split <;> rfl

/-- The severity rule exactly as the claim states it: render-time and
memory-usage violations are `critical` iff the actual value exceeds twice the
budget, and component-count violations are always `info`. -/
def claimC1Severity (v : Violation) : Prop :=
  ((v.vtype = "renderTime" ∨ v.vtype = "memoryUsage") →
    v.severity =
      (if v.budget * 2 < v.actual then Severity.critical
       else Severity.warning)) ∧
  (v.vtype = "componentCount" → v.severity = Severity.info)

/-- A monitor whose only violation is a memory-usage violation with
`budget < actual ≤ 1.5 × budget < 2 × budget` would give `warning`; here
`actual = 180` lies between `1.5 × budget = 150` and `2 × budget = 200`. -/
def monitorC1 : Monitor :=
  { initMonitor with
      memoryUsage := [{ used := 180, total := 0, limit := 0, timestamp := 0 }],
      budgets := { defaultBudgets with memoryUsage := 100 } }

/-- The violation `checkPerformanceBudgets` emits on `monitorC1`. -/
def violationC1 : Violation :=
  { vtype := "memoryUsage", budget := 100, actual := 180,
    severity := Severity.critical }

lemma monitorC1_violations :
    (checkPerformanceBudgets monitorC1 0).1 = [violationC1] := by
  rw [checkPerformanceBudgets_fst]
  unfold checkViolationsList renderTimeViolation totalRenderTimeViolation
    memoryViolation componentCountViolation avgRenderTimeOf currentMemoryOf
    monitorC1 initMonitor defaultBudgets violationC1
  norm_num

/-- Counterexample for C1: on `monitorC1`, `checkPerformanceBudgets` returns
exactly one violation, of type memoryUsage with actual 180 and budget 100;
its severity is `critical` although 180 does not exceed 2 × 100 (the source
uses a 1.5× factor for the memory budget, not the 2× factor the claim
states). -/
theorem checkPerformanceBudgets_severity_cex :
    (checkPerformanceBudgets monitorC1 0).1 = [violationC1] ∧
      ¬ claimC1Severity violationC1 := by
  refine ⟨monitorC1_violations, ?_⟩
  intro hc
  have h1 := hc.1 (Or.inr rfl)
  simp only [violationC1] at h1
  rw [if_neg (by norm_num)] at h1
  exact Severity.noConfusion h1

/-- The severity rule the source actually implements. -/
def severityRule (v : Violation) : Prop :=
  (v.vtype = "renderTime" →
    v.severity =
      (if v.budget * 2 < v.actual then Severity.critical
       else Severity.warning)) ∧
  (v.vtype = "totalRenderTime" → v.severity = Severity.warning) ∧
  (v.vtype = "memoryUsage" →
    v.severity =
      (if v.budget * (3 / 2) < v.actual then Severity.critical
       else Severity.warning)) ∧
  (v.vtype = "componentCount" → v.severity = Severity.info)

/-- C1 (amended): Every violation returned by `checkPerformanceBudgets`
has its severity derived as: for renderTime, `critical` iff actual exceeds 2×
budget, else `warning`; for memoryUsage, `critical` iff actual exceeds 1.5×
budget, else `warning`; totalRenderTime is always `warning`; componentCount is
always `info`. -/
theorem checkPerformanceBudgets_severity (m : Monitor) (now : ℤ)
    (v : Violation) (hv : v ∈ (checkPerformanceBudgets m now).1) :
    severityRule v := by
  rw [checkPerformanceBudgets_fst] at hv
  unfold checkViolationsList at hv
  simp only [List.mem_append, Option.mem_toList, Option.mem_def] at hv
  rcases hv with ((h | h) | h) | h
  · simp only [renderTimeViolation] at h
    split at h
    · injection h with h2
      subst h2
      exact ⟨fun _ => rfl, by intro hx; simp at hx, by intro hx; simp at hx,
        by intro hx; simp at hx⟩
    · exact Option.noConfusion h
  · simp only [totalRenderTimeViolation] at h
    split at h
    · injection h with h2
      subst h2
      exact ⟨by intro hx; simp at hx, fun _ => rfl, by intro hx; simp at hx,
        by intro hx; simp at hx⟩
    · exact Option.noConfusion h
  · simp only [memoryViolation] at h
    split at h
    · injection h with h2
      subst h2
      exact ⟨by intro hx; simp at hx, by intro hx; simp at hx, fun _ => rfl,
        by intro hx; simp at hx⟩
    · exact Option.noConfusion h
  · simp only [componentCountViolation] at h
    split at h
    · injection h with h2
      subst h2
      exact ⟨by intro hx; simp at hx, by intro hx; simp at hx,
        by intro hx; simp at hx, fun _ => rfl⟩
    · exact Option.noConfusion h

/-- Witness for C1 (amended), applying the theorem at the concrete monitor
`monitorC1` and its concrete memory-usage violation. -/
theorem checkPerformanceBudgets_severity_witness :
    severityRule violationC1 :=
  checkPerformanceBudgets_severity monitorC1 0 violationC1
    (by rw [monitorC1_violations]; exact List.mem_singleton.mpr rfl)

/-- C7: `setPerformanceBudget(name, value)` updates the named budget when
`name` is one of the six enumerated budget names, leaving every other part of
the monitor unchanged; for any other name it is a no-op (the monitor is
returned unchanged; the function is total, so it never throws).  Any value,
including `0` and negative values, is stored as given. -/
theorem setPerformanceBudget_spec (m : Monitor) (name : String) (v : ℚ) :
    (name ∉ budgetNames → setPerformanceBudget m name v = m) ∧
    (name ∈ budgetNames →
      getBudget (setPerformanceBudget m name v).budgets name = some v ∧
      (∀ other, other ∈ budgetNames → other ≠ name →
        getBudget (setPerformanceBudget m name v).budgets other =
          getBudget m.budgets other) ∧
      setPerformanceBudget m name v =
        { m with budgets := (setPerformanceBudget m name v).budgets }) := by
  constructor
  · intro hn
    simp only [budgetNames, List.mem_cons, List.not_mem_nil, or_false] at hn
    push_neg at hn
    obtain ⟨h1, h2, h3, h4, h5, h6⟩ := hn
    simp [setPerformanceBudget, h1, h2, h3, h4, h5, h6]
  · intro hn
    simp only [budgetNames, List.mem_cons, List.not_mem_nil, or_false] at hn
    rcases hn with rfl | rfl | rfl | rfl | rfl | rfl <;>
      refine ⟨by simp [setPerformanceBudget, getBudget], ?_, by rfl⟩ <;>
      intro other ho hne <;>
      simp only [budgetNames, List.mem_cons, List.not_mem_nil, or_false] at ho <;>
      rcases ho with rfl | rfl | rfl | rfl | rfl | rfl <;>
      simp_all [setPerformanceBudget, getBudget]

/-- Witness for C7: a concrete unknown name is a no-op, and concrete known
names accept a negative value and zero. -/
theorem setPerformanceBudget_spec_witness :
    setPerformanceBudget initMonitor "fooBudget" 5 = initMonitor ∧
      getBudget (setPerformanceBudget initMonitor "memoryUsage"
        (-3)).budgets "memoryUsage" = some (-3) ∧
      getBudget (setPerformanceBudget initMonitor "componentCount"
        0).budgets "componentCount" = some 0 :=
  ⟨(setPerformanceBudget_spec initMonitor "fooBudget" 5).1 (by decide),
    ((setPerformanceBudget_spec initMonitor "memoryUsage" (-3)).2
      (by decide)).1,
    ((setPerformanceBudget_spec initMonitor "componentCount" 0).2
      (by decide)).1⟩

/-- A metric bag passed to `setBaseline` / `recordCurrent`: the four tracked
metric keys, each possibly absent. -/
structure MetricBag where
  renderTime : Option ℚ
  memoryUsage : Option ℚ
  bundleSize : Option ℚ
  loadTime : Option ℚ
deriving DecidableEq

/-- The fixed metric list of `comparePerformance`. -/
def metricNames : List String :=
  ["renderTime", "memoryUsage", "bundleSize", "loadTime"]

/-- JS `bag[metric]` (`none` = property absent / `undefined`). -/
def bagGet (b : MetricBag) (name : String) : Option ℚ :=
  if name = "renderTime" then b.renderTime
  else if name = "memoryUsage" then b.memoryUsage
  else if name = "bundleSize" then b.bundleSize
  else if name = "loadTime" then b.loadTime
  else none

/-- A metric bag with the timestamp `setBaseline` / `recordCurrent` adds. -/
structure StoredMetrics where
  metrics : MetricBag
  timestamp : ℤ
deriving DecidableEq

/-- One entry of `comparison.summary`.  `percentChange` is
`(current - baseline)/baseline * 100`; when `baseline = 0` the JS value is
non-finite while `ℚ` yields `0` — no claim inspects `percentChange` at a zero
baseline, so the `ℚ` convention is harmless here. -/
structure MetricSummary where
  baseline : ℚ
  current : ℚ
  difference : ℚ
  percentChange : ℚ
  improved : Bool
deriving DecidableEq

/-- A full comparison record as built by `comparePerformance`. -/
structure Comparison where
  componentName : String
  baseline : StoredMetrics
  current : StoredMetrics
  improvements : List (String × ℚ)
  regressions : List (String × ℚ)
  summary : List (String × MetricSummary)
deriving DecidableEq

/-- The state of a `PerformanceComparator` instance. -/
structure Comparator where
  baselines : List (String × StoredMetrics)
  currentMetrics : List (String × StoredMetrics)
  comparisonResults : List Comparison
deriving DecidableEq

/-- A freshly constructed `PerformanceComparator`. -/
def initComparator : Comparator where
  baselines := []
  currentMetrics := []
  comparisonResults := []

/-- JS `setBaseline(componentName, metrics)` (the `Date.now()` stamp is the
`now` parameter). -/
def setBaseline (c : Comparator) (componentName : String) (metrics : MetricBag)
    (now : ℤ) : Comparator :=
  { c with baselines := mapSet c.baselines componentName ⟨metrics, now⟩ }

/-- JS `recordCurrent(componentName, metrics)`. -/
def recordCurrent (c : Comparator) (componentName : String)
    (metrics : MetricBag) (now : ℤ) : Comparator :=
  { c with
      currentMetrics := mapSet c.currentMetrics componentName ⟨metrics, now⟩ }

/-- The per-metric body of the `metrics.forEach` loop of `comparePerformance`:
`none` when the metric is absent from either bag, otherwise the summary
entry. -/
def compareMetric (bv cv : Option ℚ) : Option MetricSummary :=
  match bv, cv with
  | some b, some cur =>
      some { baseline := b, current := cur, difference := cur - b,
             percentChange := (cur - b) / b * 100,
             improved := decide (cur - b < 0) }
  | _, _ => none

/-- The `summary` map built by the loop, in metric order. -/
def summaryEntries (bb cb : MetricBag) : List (String × MetricSummary) :=
  metricNames.filterMap
    (fun n => (compareMetric (bagGet bb n) (bagGet cb n)).map (fun s => (n, s)))

/-- JS `comparePerformance(componentName)`: `null` when baseline or current is
missing; otherwise builds the comparison record, pushes it onto
`comparisonResults` (no cap) and returns it. -/
def comparePerformance (c : Comparator) (componentName : String) :
    Option Comparison × Comparator :=
  match mapGet c.baselines componentName,
      mapGet c.currentMetrics componentName with
  | some sb, some sc =>
      let summary := summaryEntries sb.metrics sc.metrics
      let comparison : Comparison :=
        { componentName := componentName, baseline := sb, current := sc,
          improvements := summary.filterMap
            (fun p => if p.2.difference < 0 then
              some (p.1, |p.2.percentChange|) else none),
          regressions := summary.filterMap
            (fun p => if 0 < p.2.difference then
              some (p.1, p.2.percentChange) else none),
          summary := summary }
      (some comparison,
        { c with comparisonResults := c.comparisonResults ++ [comparison] })
  | _, _ => (none, c)

lemma compareMetric_eq_some {bv cv : Option ℚ} {s : MetricSummary}
    (h : compareMetric bv cv = some s) : bv.isSome ∧ cv.isSome := by
  cases bv <;> cases cv <;> simp [compareMetric] at h ⊢

/-- The comparison record built by a successful `comparePerformance` call. -/
def buildComparison (componentName : String) (sb sc : StoredMetrics) :
    Comparison :=
  let summary := summaryEntries sb.metrics sc.metrics
  { componentName := componentName, baseline := sb, current := sc,
    improvements := summary.filterMap
      (fun p => if p.2.difference < 0 then
        some (p.1, |p.2.percentChange|) else none),
    regressions := summary.filterMap
      (fun p => if 0 < p.2.difference then
        some (p.1, p.2.percentChange) else none),
    summary := summary }

lemma mem_summaryEntries {bb cb : MetricBag} {mn : String}
    (hmn : mn ∈ metricNames) {bv cv : ℚ} (hbv : bagGet bb mn = some bv)
    (hcv : bagGet cb mn = some cv) :
    (mn, { baseline := bv, current := cv, difference := cv - bv,
           percentChange := (cv - bv) / bv * 100,
           improved := decide (cv - bv < 0) : MetricSummary }) ∈
      summaryEntries bb cb := by
  apply List.mem_filterMap.mpr
  exact ⟨mn, hmn, by rw [hbv, hcv]; rfl⟩

lemma summaryEntries_mem_eq {bb cb : MetricBag} {mn : String}
    {s : MetricSummary} (h : (mn, s) ∈ summaryEntries bb cb) :
    compareMetric (bagGet bb mn) (bagGet cb mn) = some s := by
  obtain ⟨n, hn, hf⟩ := List.mem_filterMap.mp h
  obtain ⟨t, ht, hts⟩ := Option.map_eq_some'.mp hf
  obtain ⟨rfl, rfl⟩ := Prod.mk.injEq .. |>.mp hts
  exact ht

lemma buildComparison_summary (name : String) (sb sc : StoredMetrics) :
    (buildComparison name sb sc).summary =
      summaryEntries sb.metrics sc.metrics := rfl

lemma mem_improvements {name : String} {sb sc : StoredMetrics} {mn : String}
    {s : MetricSummary} (hmem : (mn, s) ∈ summaryEntries sb.metrics sc.metrics)
    (hd : s.difference < 0) :
    (mn, |s.percentChange|) ∈ (buildComparison name sb sc).improvements := by
  simp only [buildComparison]
  apply List.mem_filterMap.mpr
  exact ⟨(mn, s), hmem, by rw [if_pos hd]⟩

lemma mem_regressions {name : String} {sb sc : StoredMetrics} {mn : String}
    {s : MetricSummary} (hmem : (mn, s) ∈ summaryEntries sb.metrics sc.metrics)
    (hd : 0 < s.difference) :
    (mn, s.percentChange) ∈ (buildComparison name sb sc).regressions := by
  simp only [buildComparison]
  apply List.mem_filterMap.mpr
  exact ⟨(mn, s), hmem, by rw [if_pos hd]⟩

/-- C4: `comparePerformance(name)` returns `null` when baseline or current
is missing for `name`.  When both are stored, it returns a non-null record:
every metric of the fixed set {renderTime, memoryUsage, bundleSize, loadTime}
present in both bags appears in `summary` with `difference = current -
baseline` and `improved` true exactly when the difference is negative, and is
entered into `improvements` (absolute percent change) when the difference is
negative and into `regressions` when it is positive; a metric absent from
either bag is skipped from `summary` entirely.  In particular, when both bags
contain all four metrics, all four are compared. -/
theorem comparePerformance_spec (c : Comparator) (name : String) :
    ((mapGet c.baselines name = none ∨ mapGet c.currentMetrics name = none) →
      (comparePerformance c name).1 = none) ∧
    (∀ sb sc, mapGet c.baselines name = some sb →
      mapGet c.currentMetrics name = some sc →
      ∃ r, (comparePerformance c name).1 = some r ∧
        (∀ mn ∈ metricNames, ∀ bv cv, bagGet sb.metrics mn = some bv →
          bagGet sc.metrics mn = some cv →
          ∃ s, (mn, s) ∈ r.summary ∧ s.baseline = bv ∧ s.current = cv ∧
            s.difference = cv - bv ∧ (s.improved = true ↔ s.difference < 0) ∧
            (s.difference < 0 → (mn, |s.percentChange|) ∈ r.improvements) ∧
            (0 < s.difference → (mn, s.percentChange) ∈ r.regressions)) ∧
        (∀ mn, (bagGet sb.metrics mn = none ∨ bagGet sc.metrics mn = none) →
          ∀ s, (mn, s) ∉ r.summary)) := by
  constructor
  · intro h
    unfold comparePerformance
    rcases h with h | h
    · rw [h]
    · rw [h]
      cases mapGet c.baselines name <;> rfl
  · intro sb sc hb hc
    refine ⟨buildComparison name sb sc, ?_, ?_, ?_⟩
    · unfold comparePerformance
      rw [hb, hc]
      rfl
    · intro mn hmn bv cv hbv hcv
      refine ⟨{ baseline := bv, current := cv, difference := cv - bv,
                percentChange := (cv - bv) / bv * 100,
                improved := decide (cv - bv < 0) }, ?_, rfl, rfl, rfl, ?_,
              ?_, ?_⟩
      · rw [buildComparison_summary]
        exact mem_summaryEntries hmn hbv hcv
      · simp
      · intro hd
        exact mem_improvements (mem_summaryEntries hmn hbv hcv) hd
      · intro hd
        exact mem_regressions (mem_summaryEntries hmn hbv hcv) hd
    · intro mn hnone s hs
      rw [buildComparison_summary] at hs
      have hsome := compareMetric_eq_some (summaryEntries_mem_eq hs)
      rcases hnone with h | h <;> rw [h] at hsome <;> simp at hsome

/-- Two concrete metric bags, each holding all four tracked metrics. -/
def bagA : MetricBag where
  renderTime := some 10
  memoryUsage := some 20
  bundleSize := some 30
  loadTime := some 40

/-- A second concrete metric bag. -/
def bagB : MetricBag where
  renderTime := some 5
  memoryUsage := some 25
  bundleSize := some 30
  loadTime := some 50

/-- A comparator holding baseline `bagA` and current `bagB` for `"X"`. -/
def compC4 : Comparator :=
  recordCurrent (setBaseline initComparator "X" bagA 0) "X" bagB 1

/-- Witness for C4: on concrete comparators, the missing-side call returns
`null` and the both-sides call returns a record. -/
theorem comparePerformance_spec_witness :
    (comparePerformance initComparator "X").1 = none ∧
      ∃ r, (comparePerformance compC4 "X").1 = some r := by
  constructor
  · exact (comparePerformance_spec initComparator "X").1 (Or.inl rfl)
  · obtain ⟨r, hr, -, -⟩ :=
      (comparePerformance_spec compC4 "X").2 ⟨bagA, 0⟩ ⟨bagB, 1⟩ rfl rfl
    exact ⟨r, hr⟩

/-- JS `clearData()`: resets both maps and the comparison-result log. -/
def clearData (_c : Comparator) : Comparator where
  baselines := []
  currentMetrics := []
  comparisonResults := []

/-- The mutating operations of the `PerformanceComparator` API
(`generateComparisonReport`, `benchmark` and `exportData` read state but never
touch `comparisonResults`, so they are pure reads of this state and are not
listed). -/
inductive CompOp where
  | setBaselineOp (name : String) (metrics : MetricBag) (now : ℤ)
  | recordCurrentOp (name : String) (metrics : MetricBag) (now : ℤ)
  | compareOp (name : String)
  | clearDataOp
deriving DecidableEq

/-- Apply one comparator operation. -/
def stepComparator (c : Comparator) : CompOp → Comparator
  | .setBaselineOp n b t => setBaseline c n b t
  | .recordCurrentOp n b t => recordCurrent c n b t
  | .compareOp n => (comparePerformance c n).2
  | .clearDataOp => clearData c

/-- Counts `1` when the operation is a `comparePerformance` call that succeeds
(returns non-null) on state `c`, else `0`. -/
def compareSuccess (c : Comparator) : CompOp → ℕ
  | .compareOp n => if (comparePerformance c n).1.isSome then 1 else 0
  | _ => 0

/-- Run a list of comparator operations, counting the successful (non-null)
`comparePerformance` calls. -/
def runCount : Comparator → List CompOp → Comparator × ℕ
  | c, [] => (c, 0)
  | c, op :: ops =>
      let r := runCount (stepComparator c op) ops
      (r.1, compareSuccess c op + r.2)

lemma comparePerformance_snd (c : Comparator) (n : String) :
    (comparePerformance c n).2.comparisonResults =
      c.comparisonResults ++ (comparePerformance c n).1.toList := by
  unfold comparePerformance
  cases mapGet c.baselines n <;> cases mapGet c.currentMetrics n <;> simp

lemma stepComparator_log (c : Comparator) (op : CompOp)
    (hop : op ≠ CompOp.clearDataOp) :
    (stepComparator c op).comparisonResults.length =
      c.comparisonResults.length + compareSuccess c op := by
  cases op with
  | setBaselineOp n b t => rfl
  | recordCurrentOp n b t => rfl
  | clearDataOp => exact absurd rfl hop
  | compareOp n =>
      simp only [stepComparator, compareSuccess]
      rw [comparePerformance_snd, List.length_append]
      cases (comparePerformance c n).1 <;> simp

lemma runCount_log : ∀ (ops : List CompOp) (c : Comparator),
    (∀ op ∈ ops, op ≠ CompOp.clearDataOp) →
    (runCount c ops).1.comparisonResults.length =
      c.comparisonResults.length + (runCount c ops).2
  | [], c, _ => by simp [runCount]
  | op :: ops, c, h => by
    have hop : op ≠ CompOp.clearDataOp := h op (List.mem_cons_self op ops)
    have hrest : ∀ o ∈ ops, o ≠ CompOp.clearDataOp :=
      fun o ho => h o (List.mem_cons_of_mem op ho)
    simp only [runCount]
    rw [runCount_log ops (stepComparator c op) hrest,
      stepComparator_log c op hop]
    omega

/-- C9: Every successful (non-null) `comparePerformance` call appends
exactly one record to the comparison-result log, and after `clearData`
followed by any sequence of operations not containing `clearData`, the log
length equals exactly the number of successful comparisons in that sequence
(the log is uncapped and nothing else evicts from it). -/
theorem comparisonResults_log_spec :
    (∀ (c : Comparator) (name : String) (r : Comparison),
      (comparePerformance c name).1 = some r →
      (comparePerformance c name).2.comparisonResults =
        c.comparisonResults ++ [r]) ∧
    (∀ (c : Comparator) (ops : List CompOp),
      (∀ op ∈ ops, op ≠ CompOp.clearDataOp) →
      (runCount (clearData c) ops).1.comparisonResults.length =
        (runCount (clearData c) ops).2) := by
  constructor
  · intro c name r hr
    rw [comparePerformance_snd, hr]
    rfl
  · intro c ops hops
    rw [runCount_log ops (clearData c) hops]
    simp [clearData]

/-- A concrete operation sequence: set a baseline and a current for `"Y"`,
then compare. -/
def opsC9 : List CompOp :=
  [CompOp.setBaselineOp "Y" bagA 0, CompOp.recordCurrentOp "Y" bagB 1,
    CompOp.compareOp "Y"]

/-- Witness for C9, at a concrete comparator and operation list. -/
theorem comparisonResults_log_spec_witness :
    (comparePerformance compC4 "X").2.comparisonResults =
      compC4.comparisonResults ++ [buildComparison "X" ⟨bagA, 0⟩ ⟨bagB, 1⟩] ∧
    (runCount (clearData initComparator) opsC9).1.comparisonResults.length =
      (runCount (clearData initComparator) opsC9).2 :=
  ⟨comparisonResults_log_spec.1 compC4 "X"
      (buildComparison "X" ⟨bagA, 0⟩ ⟨bagB, 1⟩) rfl,
    comparisonResults_log_spec.2 initComparator opsC9 (by decide)⟩

lemma mapGet_mapSet_self {α : Type} (m : List (String × α)) (k : String)
    (v : α) : mapGet (mapSet m k v) k = some v := by
  induction m with
  | nil => simp [mapGet, mapSet]
  | cons p rest ih =>
      by_cases h : p.1 = k
      · simp [mapSet, h, mapGet]
      · simp only [mapSet, if_neg h]
        simpa [mapGet, List.find?_cons, h] using ih

/-- The per-component aggregate of `performanceData.componentMetrics[name]`
(`averageRenderTime` is recomputed at the end of every `recordRender` call;
the source creates the object without it, so its pre-first-call value is
unobservable and is `0` here). -/
structure ComponentMetrics where
  renderCount : ℕ
  totalRenderTime : ℚ
  maxRenderTime : ℚ
  averageRenderTime : ℚ
deriving DecidableEq

/-- The `performanceData` closure of `initializePerformanceMonitoring`
(the fields `recordRender` touches). -/
structure PerformanceData where
  renderTimes : List ℚ
  memoryUsage : List ℚ
  componentMetrics : List (String × ComponentMetrics)
deriving DecidableEq

/-- The initial `performanceData` object. -/
def initPerformanceData : PerformanceData where
  renderTimes := []
  memoryUsage := []
  componentMetrics := []

/-- JS `recordRender(componentName, renderTime)`: sets the monitor's
`componentRenderTimes` entry, pushes onto `performanceData.renderTimes`
(uncapped), creates the zeroed per-component record when absent, then
increments `renderCount`, accumulates `totalRenderTime`, takes the running
`Math.max` and recomputes `averageRenderTime` from the updated totals. -/
def recordRender (m : Monitor) (pd : PerformanceData) (componentName : String)
    (renderTime : ℚ) : Monitor × PerformanceData :=
  let m2 := { m with
    componentRenderTimes :=
      mapSet m.componentRenderTimes componentName renderTime }
  let init := (mapGet pd.componentMetrics componentName).getD
    { renderCount := 0, totalRenderTime := 0, maxRenderTime := 0,
      averageRenderTime := 0 }
  let metrics : ComponentMetrics :=
    { renderCount := init.renderCount + 1,
      totalRenderTime := init.totalRenderTime + renderTime,
      maxRenderTime := max init.maxRenderTime renderTime,
      averageRenderTime :=
        (init.totalRenderTime + renderTime) / ((init.renderCount : ℚ) + 1) }
  (m2,
    { pd with
        renderTimes := pd.renderTimes ++ [renderTime],
        componentMetrics :=
          mapSet pd.componentMetrics componentName metrics })

/-- Fold a sequence of `recordRender` calls for one component. -/
def recordRenders (st : Monitor × PerformanceData) (name : String)
    (ds : List ℚ) : Monitor × PerformanceData :=
  ds.foldl (fun s d => recordRender s.1 s.2 name d) st

lemma recordRender_metrics_step (m : Monitor) (pd : PerformanceData)
    (name : String) (d : ℚ) (c : ℕ) (t mx a : ℚ)
    (h : mapGet pd.componentMetrics name = some ⟨c, t, mx, a⟩) :
    mapGet (recordRender m pd name d).2.componentMetrics name =
      some ⟨c + 1, t + d, max mx d, (t + d) / ((c : ℚ) + 1)⟩ := by
  simp only [recordRender, h, Option.getD_some]
  exact mapGet_mapSet_self ..

lemma recordRender_metrics_first (m : Monitor) (pd : PerformanceData)
    (name : String) (d : ℚ)
    (h : mapGet pd.componentMetrics name = none) :
    mapGet (recordRender m pd name d).2.componentMetrics name =
      some ⟨0 + 1, 0 + d, max 0 d, (0 + d) / (((0 : ℕ) : ℚ) + 1)⟩ := by
  simp only [recordRender, h, Option.getD_none]
  exact mapGet_mapSet_self ..

lemma recordRenders_fold :
    ∀ (ds : List ℚ) (st : Monitor × PerformanceData) (name : String)
      (c : ℕ) (t mx a : ℚ),
      mapGet st.2.componentMetrics name = some ⟨c, t, mx, a⟩ →
      mapGet (recordRenders st name ds).2.componentMetrics name =
        some ⟨c + ds.length, t + ds.sum, ds.foldl max mx,
          if ds.isEmpty then a
          else (t + ds.sum) / ((c : ℚ) + ds.length)⟩
  | [], st, name, c, t, mx, a, h => by
      simpa [recordRenders] using h
  | d :: ds, st, name, c, t, mx, a, h => by
      have h1 := recordRender_metrics_step st.1 st.2 name d c t mx a h
      have h2 := recordRenders_fold ds (recordRender st.1 st.2 name d) name
        (c + 1) (t + d) (max mx d) ((t + d) / ((c : ℚ) + 1)) h1
      show mapGet
        (recordRenders (recordRender st.1 st.2 name d) name ds).2.componentMetrics
          name = _
      rw [h2]
      refine congrArg some ?_
      simp only [ComponentMetrics.mk.injEq]
      refine ⟨by simp only [List.length_cons]; omega,
        by rw [List.sum_cons]; ring, by rw [List.foldl_cons], ?_⟩
      cases ds with
      | nil =>
          simp only [List.isEmpty_nil, if_true, List.isEmpty_cons,
            List.sum_nil, List.length_nil, List.sum_cons, List.length_cons]
          push_cast
          ring_nf
      | cons e es =>
          simp only [List.isEmpty_cons, if_false, List.sum_cons,
            List.length_cons, Bool.false_eq_true]
          push_cast
          ring_nf

/-- C3: For a component with no prior metrics, after
`recordRender(name, d), recordRender(name, d2), ...` over the non-empty
duration list `d :: ds` (durations are non-negative, per the data model), the
component record satisfies `renderCount = n`, `maxRenderTime = max(d1..dn)`
and `averageRenderTime = sum(d1..dn) / n` (exactly, in `ℚ`). -/
theorem recordRender_componentMetrics (m : Monitor) (pd : PerformanceData)
    (name : String) (d : ℚ) (ds : List ℚ)
    (hnone : mapGet pd.componentMetrics name = none)
    (hpos : ∀ x ∈ d :: ds, 0 ≤ x) :
    ∃ cm, mapGet
        (recordRenders (m, pd) name (d :: ds)).2.componentMetrics name =
          some cm ∧
      cm.renderCount = (d :: ds).length ∧
      cm.maxRenderTime = ds.foldl max d ∧
      cm.averageRenderTime = (d :: ds).sum / (((d :: ds).length : ℕ) : ℚ) := by
  have h1 := recordRender_metrics_first m pd name d hnone
  have h2 := recordRenders_fold ds (recordRender m pd name d) name
    (0 + 1) (0 + d) (max 0 d) ((0 + d) / (((0 : ℕ) : ℚ) + 1)) h1
  have hd0 : (0 : ℚ) ≤ d := hpos d (List.mem_cons_self d ds)
  refine ⟨_, h2, ?_, ?_, ?_⟩
  · simp only [List.length_cons]
    omega
  · simp only [max_eq_right hd0]
  · cases ds with
    | nil =>
        simp only [List.isEmpty_nil, if_true, List.sum_cons, List.sum_nil,
          List.length_cons, List.length_nil]
        push_cast
        ring_nf
    | cons e es =>
        simp only [List.isEmpty_cons, Bool.false_eq_true, if_false,
          List.sum_cons, List.length_cons]
        push_cast
        ring_nf

/-- Witness for C3 with the concrete run `[3, 1, 4]` for component `"W"`. -/
theorem recordRender_componentMetrics_witness :
    ∃ cm, mapGet
        (recordRenders (initMonitor, initPerformanceData) "W"
          [3, 1, 4]).2.componentMetrics "W" = some cm ∧
      cm.renderCount = ([3, 1, 4] : List ℚ).length ∧
      cm.maxRenderTime = ([1, 4] : List ℚ).foldl max 3 ∧
      cm.averageRenderTime =
        ([3, 1, 4] : List ℚ).sum / ((([3, 1, 4] : List ℚ).length : ℕ) : ℚ) :=
  recordRender_componentMetrics initMonitor initPerformanceData "W" 3 [1, 4]
    rfl (by
      intro x hx
      simp only [List.mem_cons, List.not_mem_nil, or_false] at hx
      rcases hx with rfl | rfl | rfl <;> norm_num)

/-- JS `trackComponentDependency(parent, child, renderTime)`: adds `child` to
`parent`'s child set (created on demand, deduplicated) and pushes a render
history entry for `child` with a FIFO cap of 100. -/
def trackComponentDependency (m : Monitor) (parentComponent : String)
    (childComponent : String) (renderTime : ℚ) (now : ℤ) : Monitor :=
  let graph :=
    match mapGet m.dependencyGraph parentComponent with
    | none => mapSet m.dependencyGraph parentComponent [childComponent]
    | some children =>
        mapSet m.dependencyGraph parentComponent
          (if childComponent ∈ children then children
           else children ++ [childComponent])
  let history := (mapGet m.renderHistory childComponent).getD []
  let entry : RenderHistoryEntry :=
    { timestamp := now, renderTime := renderTime,
      parentComponent := parentComponent, context := "dependency" }
  { m with
      dependencyGraph := graph,
      renderHistory :=
        mapSet m.renderHistory childComponent (pushCapped 100 history entry) }

/-- The record returned by `getComponentDependencies`. -/
structure DependencyInfo where
  dependencies : List String
  dependents : List String
  renderHistory : List RenderHistoryEntry
deriving DecidableEq

/-- JS `getComponentDependencies(componentName)`: a pure read — children of the
component, all parents whose child set contains it (linear scan), and its
render history. -/
def getComponentDependencies (m : Monitor) (componentName : String) :
    DependencyInfo where
  dependencies := (mapGet m.dependencyGraph componentName).getD []
  dependents :=
    (m.dependencyGraph.filter (fun p => componentName ∈ p.2)).map Prod.fst
  renderHistory := (mapGet m.renderHistory componentName).getD []

/-- One `trackComponentDependency` call with its arguments. -/
structure TrackCall where
  parent : String
  child : String
  renderTime : ℚ
  now : ℤ
deriving DecidableEq

/-- Run a sequence of `trackComponentDependency` calls. -/
def runTracks (m : Monitor) (calls : List TrackCall) : Monitor :=
  calls.foldl
    (fun st c => trackComponentDependency st c.parent c.child c.renderTime
      c.now) m

/-- Predicate: `name` has never been seen by the dependency tracker: it keys no graph
entry, appears in no child set, and keys no render history. -/
def untracked (m : Monitor) (name : String) : Prop :=
  (∀ p ∈ m.dependencyGraph, p.1 ≠ name ∧ name ∉ p.2) ∧
  (∀ q ∈ m.renderHistory, q.1 ≠ name)

lemma mem_mapSet {α : Type} {m : List (String × α)} {k : String} {v : α}
    {q : String × α} (h : q ∈ mapSet m k v) : q = (k, v) ∨ q ∈ m := by
  induction m with
  | nil => simpa [mapSet] using h
  | cons p rest ih =>
      by_cases hk : p.1 = k
      · simp only [mapSet, if_pos hk, List.mem_cons] at h
        rcases h with h | h
        · exact Or.inl h
        · exact Or.inr (List.mem_cons_of_mem p h)
      · simp only [mapSet, if_neg hk, List.mem_cons] at h
        rcases h with h | h
        · exact Or.inr (h ▸ List.mem_cons_self p rest)
        · rcases ih h with h2 | h2
          · exact Or.inl h2
          · exact Or.inr (List.mem_cons_of_mem p h2)

lemma mapGet_eq_none_of {α : Type} {m : List (String × α)} {k : String}
    (h : ∀ p ∈ m, p.1 ≠ k) : mapGet m k = none := by
  induction m with
  | nil => rfl
  | cons p rest ih =>
      have h1 : (decide (p.1 = k)) = false := by
        simpa using h p (List.mem_cons_self p rest)
      simp only [mapGet, List.find?_cons, h1]
      exact ih (fun q hq => h q (List.mem_cons_of_mem p hq))

lemma mapGet_mem {α : Type} {m : List (String × α)} {k : String} {v : α}
    (h : mapGet m k = some v) : (k, v) ∈ m := by
  induction m with
  | nil => simp [mapGet] at h
  | cons p rest ih =>
      by_cases hk : p.1 = k
      · have h1 : (decide (p.1 = k)) = true := by simpa using hk
        simp only [mapGet, List.find?_cons, h1, Option.map_some] at h
        have hp : p = (k, v) := by
          rw [Prod.ext_iff]
          exact ⟨hk, by injection h⟩
        rw [← hp]
        exact List.mem_cons_self p rest
      · have h1 : (decide (p.1 = k)) = false := by simpa using hk
        simp only [mapGet, List.find?_cons, h1] at h
        exact List.mem_cons_of_mem p (ih h)

lemma untracked_track {m : Monitor} {name : String} (hu : untracked m name)
    (c : TrackCall) (hp : c.parent ≠ name) (hc : c.child ≠ name) :
    untracked
      (trackComponentDependency m c.parent c.child c.renderTime c.now)
      name := by
  obtain ⟨hg, hh⟩ := hu
  constructor
  · intro p hpmem
    simp only [trackComponentDependency] at hpmem
    have hcases :
        p = (c.parent, [c.child]) ∨
        (∃ children, mapGet m.dependencyGraph c.parent = some children ∧
          p = (c.parent,
            if c.child ∈ children then children
            else children ++ [c.child])) ∨
        p ∈ m.dependencyGraph := by
      rcases hg2 : mapGet m.dependencyGraph c.parent with _ | children
      · rw [hg2] at hpmem
        rcases mem_mapSet hpmem with h | h
        · exact Or.inl h
        · exact Or.inr (Or.inr h)
      · rw [hg2] at hpmem
        rcases mem_mapSet hpmem with h | h
        · exact Or.inr (Or.inl ⟨children, rfl, h⟩)
        · exact Or.inr (Or.inr h)
    rcases hcases with rfl | ⟨children, hgc, rfl⟩ | h
    · refine ⟨hp, ?_⟩
      simp only [List.mem_singleton]
      exact fun h => hc h.symm
    · refine ⟨hp, ?_⟩
      have hnc : name ∉ children := (hg _ (mapGet_mem hgc)).2
      by_cases hin : c.child ∈ children
      · simpa [hin] using hnc
      · simp only [if_neg hin, List.mem_append, List.mem_singleton]
        rintro (h | h)
        · exact hnc h
        · exact hc h.symm
    · exact hg p h
  · intro q hqmem
    simp only [trackComponentDependency] at hqmem
    rcases mem_mapSet hqmem with h | h
    · rw [h]
      exact fun h2 => hc h2
    · exact hh q h

lemma untracked_runTracks {name : String} :
    ∀ (calls : List TrackCall) (m : Monitor), untracked m name →
      (∀ c ∈ calls, c.parent ≠ name ∧ c.child ≠ name) →
      untracked (runTracks m calls) name
  | [], m, hu, _ => hu
  | c :: calls, m, hu, h => by
    have hc := h c (List.mem_cons_self c calls)
    exact untracked_runTracks calls _
      (untracked_track hu c hc.1 hc.2)
      (fun o ho => h o (List.mem_cons_of_mem c ho))

/-- C10: For a component name that has never appeared in any
`trackComponentDependency` call (neither as parent nor as child),
`getComponentDependencies(name)` returns empty dependencies, dependents and
render history.  The function is a pure read of the monitor state (it is a
plain function of `m` in this embedding, as in the source, which only calls
`Map.get` and iterates). -/
theorem getComponentDependencies_untracked (calls : List TrackCall)
    (name : String)
    (h : ∀ c ∈ calls, c.parent ≠ name ∧ c.child ≠ name) :
    getComponentDependencies (runTracks initMonitor calls) name =
      { dependencies := [], dependents := [], renderHistory := [] } := by
  have hu : untracked (runTracks initMonitor calls) name := by
    refine untracked_runTracks calls initMonitor ?_ h
    exact ⟨fun p hp => by simp [initMonitor] at hp,
      fun q hq => by simp [initMonitor] at hq⟩
  obtain ⟨hg, hh⟩ := hu
  simp only [getComponentDependencies, DependencyInfo.mk.injEq]
  refine ⟨?_, ?_, ?_⟩
  · rw [mapGet_eq_none_of (fun p hp => (hg p hp).1)]
    rfl
  · rw [List.map_eq_nil_iff, List.filter_eq_nil_iff]
    intro p hp
    simpa using (hg p hp).2
  · rw [mapGet_eq_none_of hh]
    rfl

/-- A concrete `trackComponentDependency` call. -/
def trackCallPC : TrackCall where
  parent := "P"
  child := "C"
  renderTime := 1
  now := 0

/-- Witness for C10: a concrete run tracking `"P" → "C"` leaves `"X"`
untracked. -/
theorem getComponentDependencies_untracked_witness :
    getComponentDependencies (runTracks initMonitor [trackCallPC]) "X" =
      { dependencies := [], dependents := [], renderHistory := [] } :=
  getComponentDependencies_untracked [trackCallPC] "X" (by decide)

/-- JS `recentHistory[0].timestamp` (`0` is unreachable: callers guarantee a
non-empty list, since `analyzeComponentBottlenecks` requires 5 history
entries). -/
def tsHead (l : List RenderHistoryEntry) : ℤ :=
  match l with
  | [] => 0
  | e :: _ => e.timestamp

/-- JS `recentHistory[recentHistory.length - 1].timestamp` (same remark). -/
def tsLast (l : List RenderHistoryEntry) : ℤ :=
  match l.getLast? with
  | some e => e.timestamp
  | none => 0

/-- JS `renderFrequency > budget` where the frequency may be `Infinity`
(`none`): `Infinity` exceeds every finite budget. -/
def freqGtBudget : Option ℚ → ℚ → Bool
  | none, _ => true
  | some f, b => decide (b < f)

/-- JS `getComponentDependencies(componentName).renderHistory` as used by
`analyzeComponentBottlenecks`. -/
def historyOf (m : Monitor) (name : String) : List RenderHistoryEntry :=
  (getComponentDependencies m name).renderHistory

/-- JS `history.slice(-10)`: the last (up to) 10 entries. -/
def recentOf (m : Monitor) (name : String) : List RenderHistoryEntry :=
  (historyOf m name).drop ((historyOf m name).length - 10)

/-- JS `timeSpan` between the oldest and newest of the recent entries. -/
def timeSpanOf (m : Monitor) (name : String) : ℤ :=
  tsLast (recentOf m name) - tsHead (recentOf m name)

/-- JS `renderFrequency = recentHistory.length / (timeSpan / 1000)`; `none`
models the JS `Infinity` resulting from a zero timespan (the numerator is at
least 5 in every reachable call). -/
def renderFrequencyOf (m : Monitor) (name : String) : Option ℚ :=
  if timeSpanOf m name = 0 then none
  else some (((recentOf m name).length : ℚ) /
    ((timeSpanOf m name : ℚ) / 1000))

/-- JS `avgRenderTime` over the recent entries. -/
def avgRenderTimeHist (m : Monitor) (name : String) : ℚ :=
  ((recentOf m name).map RenderHistoryEntry.renderTime).sum /
    ((recentOf m name).length : ℚ)

/-- The `isBottleneck` disjunction of the source, in source order. -/
def isBottleneckB (m : Monitor) (name : String) : Bool :=
  decide (m.budgets.renderTime < avgRenderTimeHist m name) ||
    freqGtBudget (renderFrequencyOf m name) m.budgets.reRendersPerSecond ||
    decide (10 < (getComponentDependencies m name).dependencies.length)

/-- One entry of the `bottlenecks` result. -/
structure Bottleneck where
  componentName : String
  avgRenderTime : ℚ
  renderFrequency : Option ℚ
  dependencyCount : ℕ
  dependentCount : ℕ
  issues : List String
  recommendations : List String
deriving DecidableEq

/-- The loop body of `analyzeComponentBottlenecks` for one component (the
loop variable `renderTime` is unused by the source body): `none` when the
history has fewer than 5 entries or the component is not a bottleneck. -/
def analyzeOne (m : Monitor) (componentName : String) : Option Bottleneck :=
  if (historyOf m componentName).length < 5 then none
  else if isBottleneckB m componentName then
    some
      { componentName := componentName,
        avgRenderTime := avgRenderTimeHist m componentName,
        renderFrequency := renderFrequencyOf m componentName,
        dependencyCount :=
          (getComponentDependencies m componentName).dependencies.length,
        dependentCount :=
          (getComponentDependencies m componentName).dependents.length,
        issues :=
          (if m.budgets.renderTime < avgRenderTimeHist m componentName then
            ["Slow render time"] else []) ++
          (if freqGtBudget (renderFrequencyOf m componentName)
              m.budgets.reRendersPerSecond then
            ["High re-render frequency"] else []) ++
          (if 10 <
              (getComponentDependencies m componentName).dependencies.length
            then ["Too many child components"] else []),
        recommendations :=
          (if m.budgets.renderTime < avgRenderTimeHist m componentName then
            ["Consider memoization with React.memo()"] else []) ++
          (if freqGtBudget (renderFrequencyOf m componentName)
              m.budgets.reRendersPerSecond then
            ["Check for unnecessary prop changes or state updates"] else []) ++
          (if 10 <
              (getComponentDependencies m componentName).dependencies.length
            then ["Consider component composition or virtualization"]
            else []) }
  else none

/-- Insert into a sorted list according to `cmp` (stable). -/
def insertSorted {α : Type} (cmp : α → α → Bool) (a : α) : List α → List α
  | [] => [a]
  | b :: t => if cmp a b then a :: b :: t else b :: insertSorted cmp a t

/-- Comparator-based sort (models `Array.prototype.sort`; the claims only use
that sorting permutes, so any comparator-respecting sort is faithful). -/
def sortBy {α : Type} (cmp : α → α → Bool) (l : List α) : List α :=
  l.foldr (insertSorted cmp) []

/-- JS `analyzeComponentBottlenecks()`: analyze every component with render-time
data, then sort descending by `avgRenderTime`. -/
def analyzeComponentBottlenecks (m : Monitor) : List Bottleneck :=
  sortBy (fun a b => decide (b.avgRenderTime ≤ a.avgRenderTime))
    (m.componentRenderTimes.filterMap (fun p => analyzeOne m p.1))

lemma mem_insertSorted {α : Type} (cmp : α → α → Bool) (a x : α) :
    ∀ l : List α, x ∈ insertSorted cmp a l ↔ x = a ∨ x ∈ l
  | [] => by simp [insertSorted]
  | b :: t => by
      by_cases h : cmp a b
      · simp [insertSorted, h]
      · simp only [insertSorted, if_neg h, List.mem_cons,
          mem_insertSorted cmp a x t]
        tauto

lemma mem_sortBy {α : Type} (cmp : α → α → Bool) (x : α) :
    ∀ l : List α, x ∈ sortBy cmp l ↔ x ∈ l
  | [] => Iff.rfl
  | b :: t => by
      have ht := mem_sortBy cmp x t
      simp only [sortBy, List.foldr_cons] at ht ⊢
      rw [mem_insertSorted, ht]
      simp [List.mem_cons]

lemma analyzeOne_name {m : Monitor} {q : String} {b : Bottleneck}
    (h : analyzeOne m q = some b) :
    b.componentName = q ∧ 5 ≤ (historyOf m q).length := by
  unfold analyzeOne at h
  by_cases h5 : (historyOf m q).length < 5
  · rw [if_pos h5] at h
    exact Option.noConfusion h
  · rw [if_neg h5] at h
    split at h
    · refine ⟨?_, by omega⟩
      injection h with h2
      rw [← h2]
    · exact Option.noConfusion h

lemma tsHead_mem {l : List RenderHistoryEntry} (h : l ≠ []) :
    ∃ e ∈ l, tsHead l = e.timestamp := by
  cases l with
  | nil => exact absurd rfl h
  | cons e t => exact ⟨e, List.mem_cons_self e t, rfl⟩

lemma tsLast_mem {l : List RenderHistoryEntry} (h : l ≠ []) :
    ∃ e ∈ l, tsLast l = e.timestamp := by
  refine ⟨l.getLast h, List.getLast_mem h, ?_⟩
  unfold tsLast
  rw [List.getLast?_eq_getLast_of_ne_nil h]

lemma recentOf_ne_nil {m : Monitor} {name : String}
    (hlen : 5 ≤ (historyOf m name).length) : recentOf m name ≠ [] := by
  have h1 : (recentOf m name).length =
      (historyOf m name).length - ((historyOf m name).length - 10) := by
    simp [recentOf, List.length_drop]
  intro hnil
  rw [hnil] at h1
  simp at h1
  omega

lemma analyzeOne_zero_timespan {m : Monitor} {name : String}
    (hlen : 5 ≤ (historyOf m name).length)
    (hts : ∀ e1 ∈ recentOf m name, ∀ e2 ∈ recentOf m name,
      e1.timestamp = e2.timestamp) :
    ∃ b, analyzeOne m name = some b ∧ b.componentName = name := by
  have hne : recentOf m name ≠ [] := recentOf_ne_nil hlen
  have hts0 : timeSpanOf m name = 0 := by
    obtain ⟨e1, he1, h1⟩ := tsLast_mem hne
    obtain ⟨e2, he2, h2⟩ := tsHead_mem hne
    unfold timeSpanOf
    rw [h1, h2, hts e1 he1 e2 he2]
    omega
  have hfreq : renderFrequencyOf m name = none := by
    simp [renderFrequencyOf, hts0]
  have hB : isBottleneckB m name = true := by
    simp [isBottleneckB, hfreq, freqGtBudget]
  unfold analyzeOne
  rw [if_neg (show ¬ (historyOf m name).length < 5 by omega), if_pos hB]
  exact ⟨_, rfl, rfl⟩

/-- C8: A component whose render history contains fewer than 5 entries is
never included in the result of `analyzeComponentBottlenecks`, regardless of
its render times, frequency or child count. -/
theorem analyzeBottlenecks_insufficient_history (m : Monitor) (name : String)
    (h : (historyOf m name).length < 5) :
    name ∉ (analyzeComponentBottlenecks m).map Bottleneck.componentName := by
  intro hmem
  obtain ⟨b, hb, hbname⟩ := List.mem_map.mp hmem
  unfold analyzeComponentBottlenecks at hb
  obtain ⟨p, hp, hpb⟩ := List.mem_filterMap.mp ((mem_sortBy _ _ _).mp hb)
  obtain ⟨hname, hlen⟩ := analyzeOne_name hpb
  rw [hname] at hbname
  rw [hbname] at hlen
  omega

/-- A 4-entry render history for `"A"` (below the 5-entry cutoff). -/
def entryC8 : RenderHistoryEntry where
  timestamp := 0
  renderTime := 100
  parentComponent := "P"
  context := "dependency"

/-- A monitor where `"A"` has render-time data but only 4 history entries. -/
def monitorC8 : Monitor :=
  { initMonitor with
      componentRenderTimes := [("A", 100)],
      renderHistory := [("A", [entryC8, entryC8, entryC8, entryC8])] }

/-- Witness for C8 at the concrete monitor `monitorC8`. -/
theorem analyzeBottlenecks_insufficient_history_witness :
    "A" ∉ (analyzeComponentBottlenecks monitorC8).map
      Bottleneck.componentName :=
  analyzeBottlenecks_insufficient_history monitorC8 "A" (by decide)

/-- C5 (amended): For a component with render-time data whose render
history has at least 5 entries and whose last 10 entries all carry the same
timestamp (zero timespan), `analyzeComponentBottlenecks` treats the render
frequency as infinite, so the frequency condition HOLDS and the component is
always flagged — even when neither the average-render-time condition nor the
child-count condition holds.  (No division by zero occurs: the JS quotient is
`Infinity`, modelled as `none`.) -/
theorem analyzeBottlenecks_zero_timespan (m : Monitor) (name : String)
    (rt : ℚ) (hmem : (name, rt) ∈ m.componentRenderTimes)
    (hlen : 5 ≤ (historyOf m name).length)
    (hts : ∀ e1 ∈ recentOf m name, ∀ e2 ∈ recentOf m name,
      e1.timestamp = e2.timestamp) :
    name ∈ (analyzeComponentBottlenecks m).map Bottleneck.componentName := by
  obtain ⟨b, hb, hbname⟩ := analyzeOne_zero_timespan hlen hts
  refine List.mem_map.mpr ⟨b, ?_, hbname⟩
  unfold analyzeComponentBottlenecks
  exact (mem_sortBy _ _ _).mpr
    (List.mem_filterMap.mpr ⟨(name, rt), hmem, hb⟩)

/-- A history entry with a fixed timestamp and a fast (1 ms) render. -/
def entryC5 : RenderHistoryEntry where
  timestamp := 5
  renderTime := 1
  parentComponent := "P"
  context := "dependency"

/-- A monitor where `"A"` has 10 history entries, all at timestamp 5, a fast
average render (1 ms, far below the 16 ms budget) and no children. -/
def monitorC5 : Monitor :=
  { initMonitor with
      componentRenderTimes := [("A", 1)],
      renderHistory := [("A", [entryC5, entryC5, entryC5, entryC5, entryC5,
        entryC5, entryC5, entryC5, entryC5, entryC5])] }

/-- Witness for C5 (amended) at the concrete monitor `monitorC5`. -/
theorem analyzeBottlenecks_zero_timespan_witness :
    "A" ∈ (analyzeComponentBottlenecks monitorC5).map
      Bottleneck.componentName :=
  analyzeBottlenecks_zero_timespan monitorC5 "A" 1 (by decide) (by decide)
    (by decide)

/-- Counterexample for C5 as stated: on `monitorC5` the component `"A"` has a
zero-timespan recent history (all timestamps are 5), its average render time
(1) does not exceed the render-time budget (16) and its child count (0) does
not exceed 10 — yet `analyzeComponentBottlenecks` DOES flag it, via the
render-frequency condition (`Infinity > 30`), contradicting the claim that
the frequency condition is skipped and the component flagged only if the
other two conditions hold. -/
theorem analyzeBottlenecks_zero_timespan_cex :
    (∀ e ∈ recentOf monitorC5 "A", e.timestamp = 5) ∧
    ¬ monitorC5.budgets.renderTime < avgRenderTimeHist monitorC5 "A" ∧
    ¬ 10 < (getComponentDependencies monitorC5 "A").dependencies.length ∧
    "A" ∈ (analyzeComponentBottlenecks monitorC5).map
      Bottleneck.componentName := by
  refine ⟨by decide, ?_, by decide, ?_⟩
  · have havg : avgRenderTimeHist monitorC5 "A" = 1 := by
      unfold avgRenderTimeHist recentOf historyOf getComponentDependencies
        monitorC5 initMonitor mapGet entryC5
      norm_num
    rw [havg]
    unfold monitorC5 initMonitor defaultBudgets
    norm_num
  · obtain ⟨b, hb, hbname⟩ :=
      @analyzeOne_zero_timespan monitorC5 "A" (by decide) (by decide)
    refine List.mem_map.mpr ⟨b, ?_, hbname⟩
    unfold analyzeComponentBottlenecks
    exact (mem_sortBy _ _ _).mpr
      (List.mem_filterMap.mpr ⟨("A", 1), by decide, hb⟩)

/-- JS `takePerformanceSnapshot(label)`: captures label, time, memory (the host
heap reading is the `mem` parameter), component count, a copy of the render
times, and the budget violations of a `checkPerformanceBudgets()` call —
which also mutates the violation log, hence the returned monitor. -/
def takePerformanceSnapshot (m : Monitor) (now : ℤ) (mem : ℚ)
    (label : String) : Snapshot × Monitor :=
  let result := checkPerformanceBudgets m now
  ({ label := label, timestamp := now, memory := mem,
     componentCount := m.componentRenderTimes.length,
     renderTimes := m.componentRenderTimes,
     budgetViolations := result.1 }, result.2)

/-- JS `startProfilingSession(sessionName)`: builds the session object, takes
the initial snapshot and stores the session in the single slot (overwriting
any active one). -/
def startProfilingSession (m : Monitor) (now : ℤ) (mem : ℚ)
    (sessionName : String) : Session × Monitor :=
  let snap := takePerformanceSnapshot m now mem "session-start"
  let session : Session :=
    { name := sessionName, startTime := now, startMemory := mem,
      initialComponentCount := m.componentRenderTimes.length,
      snapshots := [snap.1] }
  (session, { snap.2 with currentSession := some session })

/-- The report object returned by a successful `endProfilingSession()`. -/
structure SessionReport where
  session : Session
  duration : ℤ
  memoryDelta : ℚ
  newComponents : ℤ
  bottlenecks : List Bottleneck
  budgetViolations : ℕ
deriving DecidableEq

/-- JS `endProfilingSession()`: with no active session, warns and returns `null`
without touching any state; otherwise stamps the session, appends a final
snapshot (mutating the violation log through `checkPerformanceBudgets`),
builds the report and clears the session slot. -/
def endProfilingSession (m : Monitor) (now : ℤ) (mem : ℚ) :
    Option SessionReport × Monitor :=
  match m.currentSession with
  | none => (none, m)
  | some s =>
      let s1 := { s with endTime := some now,
                         duration := some (now - s.startTime),
                         endMemory := some mem,
                         memoryDelta := some (mem - s.startMemory) }
      let snap := takePerformanceSnapshot m now mem "session-end"
      let s2 := { s1 with snapshots := s1.snapshots ++ [snap.1] }
      let report : SessionReport :=
        { session := s2,
          duration := now - s.startTime,
          memoryDelta := mem - s.startMemory,
          newComponents :=
            (((s2.snapshots.getLast?.map Snapshot.componentCount).getD 0 : ℕ) :
              ℤ) - (s.initialComponentCount : ℤ),
          bottlenecks := analyzeComponentBottlenecks snap.2,
          budgetViolations :=
            (s2.snapshots.map (fun sn => sn.budgetViolations.length)).sum }
      (some report, { snap.2 with currentSession := none })

/-- C6: Whenever no profiling session is active, `endProfilingSession()`
returns `null` and leaves the monitor completely unchanged (it only logs a
warning; the function is total, so it never throws). -/
theorem endProfilingSession_idle (m : Monitor) (now : ℤ) (mem : ℚ)
    (h : m.currentSession = none) :
    endProfilingSession m now mem = (none, m) := by
  unfold endProfilingSession
  rw [h]

/-- Witness for C6 at the fresh monitor, which has no active session. -/
theorem endProfilingSession_idle_witness :
    endProfilingSession initMonitor 7 3 = (none, initMonitor) :=
  endProfilingSession_idle initMonitor 7 3 rfl
